import Mathlib

/-!
Shallow embedding of the embedding-generation subsystem of memento-mcp:
the vector normalization routine, the Ollama embedding provider
(request/response handling and validation), and the embedding-service
factory (registry, `createService`, `createFromEnvironment`).

Vectors are modelled as `List ℝ`; JavaScript numbers are modelled as real
numbers, so floating-point rounding is idealized away and "norm ≈ 1 within
floating-point tolerance" becomes exact equality.  Thrown errors are
modelled with `Except`.
-/

/-! ## Vector normalization (`OllamaEmbeddingService._normalizeVector`) -/

/-- The accumulation loop `for i: magnitude += vector[i] * vector[i]`
(sum of squares, accumulated left to right from 0). -/
def sumOfSquares (v : List ℝ) : ℝ :=
  v.foldl (fun acc x => acc + x * x) 0

/-- The JavaScript assignment `vector[0] = 1` performed on an array:
on a non-empty array it overwrites the first element; on an empty array it
creates element 0, yielding the one-element array `[1]`. -/
def setIndexZeroToOne (v : List ℝ) : List ℝ :=
  match v with
  | [] => [1]
  | _ :: t => 1 :: t

/-- The routine `_normalizeVector`: compute the Euclidean magnitude (square root of the
sum of squares); if it is strictly positive divide every component by it,
otherwise assign 1 to index 0. -/
noncomputable def normalizeVector (v : List ℝ) : List ℝ :=
  let magnitude := Real.sqrt (sumOfSquares v)
  if 0 < magnitude then
    v.map (fun x => x / magnitude)
  else
    setIndexZeroToOne v

/-! ### Basic lemmas about `sumOfSquares` -/

theorem foldl_sq_shift (l : List ℝ) (a : ℝ) :
    l.foldl (fun acc x => acc + x * x) a
      = a + l.foldl (fun acc x => acc + x * x) 0 := by
  induction l generalizing a with
  | nil => simp
  | cons x t ih =>
    simp only [List.foldl_cons]
    rw [ih (a + x * x), ih (0 + x * x)]
    ring

theorem sumOfSquares_nil : sumOfSquares [] = 0 := rfl

theorem sumOfSquares_cons (x : ℝ) (t : List ℝ) :
    sumOfSquares (x :: t) = x * x + sumOfSquares t := by
  simp only [sumOfSquares, List.foldl_cons]
  rw [foldl_sq_shift t (0 + x * x)]
  ring

theorem sumOfSquares_nonneg (v : List ℝ) : 0 ≤ sumOfSquares v := by
  induction v with
  | nil => simp [sumOfSquares_nil]
  | cons x t ih =>
    rw [sumOfSquares_cons]
    nlinarith [mul_self_nonneg x]

theorem sumOfSquares_pos_of_mem_ne_zero (v : List ℝ) (x : ℝ)
    (hx : x ∈ v) (hne : x ≠ 0) : 0 < sumOfSquares v := by
  induction v with
  | nil => cases hx
  | cons y t ih =>
    rw [sumOfSquares_cons]
    rcases List.mem_cons.mp hx with h | h
    · subst h
      have : 0 < x * x := mul_self_pos.mpr hne
      nlinarith [sumOfSquares_nonneg t]
    · have := ih h
      nlinarith [mul_self_nonneg y]

theorem sumOfSquares_eq_zero_of_all_zero (v : List ℝ)
    (h : ∀ x ∈ v, x = 0) : sumOfSquares v = 0 := by
  induction v with
  | nil => rfl
  | cons y t ih =>
    rw [sumOfSquares_cons, h y (List.mem_cons_self y t),
      ih (fun x hx => h x (List.mem_cons_of_mem y hx))]
    ring

theorem sumOfSquares_map_div (v : List ℝ) (m : ℝ) :
    sumOfSquares (v.map (fun x => x / m)) = sumOfSquares v / (m * m) := by
  induction v with
  | nil => simp [sumOfSquares_nil]
  | cons y t ih =>
    simp only [List.map_cons]
    rw [sumOfSquares_cons, sumOfSquares_cons, ih,
      div_mul_div_comm, div_add_div_same]

theorem normalizeVector_eq_map (v : List ℝ) (h : 0 < sumOfSquares v) :
    normalizeVector v = v.map (fun x => x / Real.sqrt (sumOfSquares v)) := by
  unfold normalizeVector
  rw [if_pos (Real.sqrt_pos.mpr h)]

theorem sign_div_of_pos (x m : ℝ) (hm : 0 < m) :
    Real.sign (x / m) = Real.sign x := by
  rcases lt_trichotomy x 0 with hx | hx | hx
  · rw [Real.sign_of_neg hx, Real.sign_of_neg (div_neg_of_neg_of_pos hx hm)]
  · rw [hx, zero_div]
  · rw [Real.sign_of_pos hx, Real.sign_of_pos (div_pos hx hm)]

theorem getD_map_of_lt (f : ℝ → ℝ) (l : List ℝ) (i : ℕ) (h : i < l.length) :
    (l.map f).getD i 0 = f (l.getD i 0) := by
  rw [List.getD_eq_getElem?_getD, List.getD_eq_getElem?_getD, List.getElem?_map,
    List.getElem?_eq_getElem h]
  rfl

/-- C1: For every input vector with at least one non-zero component,
`_normalizeVector` (modelled over the reals, so "within floating-point
tolerance" becomes exact): keeps the length; maps each component to the
input component divided by the Euclidean norm of the input; produces a result of
Euclidean norm 1; and leaves the sign of every component unchanged (hence
also the relative proportions, stated as cross-products). -/
theorem normalizeVector_nonzero_correct (v : List ℝ)
    (h : ∃ x ∈ v, x ≠ 0) :
    (normalizeVector v).length = v.length ∧
    normalizeVector v = v.map (fun x => x / Real.sqrt (sumOfSquares v)) ∧
    Real.sqrt (sumOfSquares (normalizeVector v)) = 1 ∧
    (∀ i, i < v.length →
      Real.sign ((normalizeVector v).getD i 0) = Real.sign (v.getD i 0)) ∧
    (∀ i j, i < v.length → j < v.length →
      (normalizeVector v).getD i 0 * v.getD j 0
        = (normalizeVector v).getD j 0 * v.getD i 0) := by
  obtain ⟨x, hx, hxne⟩ := h
  have hs : 0 < sumOfSquares v := sumOfSquares_pos_of_mem_ne_zero v x hx hxne
  have hm : 0 < Real.sqrt (sumOfSquares v) := Real.sqrt_pos.mpr hs
  have hmap := normalizeVector_eq_map v hs
  refine ⟨by rw [hmap]; simp, hmap, ?_, ?_, ?_⟩
  · rw [hmap, sumOfSquares_map_div, Real.mul_self_sqrt hs.le,
      div_self (ne_of_gt hs), Real.sqrt_one]
  · intro i hi
    rw [hmap, getD_map_of_lt _ _ _ hi, sign_div_of_pos _ _ hm]
  · intro i j hi hj
    rw [hmap, getD_map_of_lt _ _ _ hi, getD_map_of_lt _ _ _ hj]
    ring

theorem normalizeVector_nonzero_correct_witness :
    (∃ x ∈ [(3 : ℝ), 4], x ≠ 0) ∧
    (normalizeVector [(3 : ℝ), 4]).length = [(3 : ℝ), 4].length := by
  have h : ∃ x ∈ [(3 : ℝ), 4], x ≠ 0 := ⟨3, by simp, by norm_num⟩
  exact ⟨h, (normalizeVector_nonzero_correct [(3 : ℝ), 4] h).1⟩

theorem normalizeVector_all_zero_eq (v : List ℝ) (h : ∀ x ∈ v, x = 0) :
    normalizeVector v = setIndexZeroToOne v := by
  unfold normalizeVector
  rw [sumOfSquares_eq_zero_of_all_zero v h, Real.sqrt_zero, if_neg (lt_irrefl 0)]

/-- C2 (amended: non-empty input): For every non-empty all-zero input
vector, `_normalizeVector` takes the zero-norm branch (no division), sets
the first component to 1 and leaves the rest at zero, returning a vector of
the same length as the input. -/
theorem normalizeVector_all_zero_correct (v : List ℝ)
    (hne : v ≠ []) (h : ∀ x ∈ v, x = 0) :
    normalizeVector v = 1 :: List.replicate (v.length - 1) 0 ∧
    (normalizeVector v).length = v.length := by
  rw [normalizeVector_all_zero_eq v h]
  match v, hne with
  | y :: t, _ =>
    have ht : t = List.replicate t.length (0 : ℝ) :=
      List.eq_replicate_of_mem (fun b hb => h b (List.mem_cons_of_mem y hb))
    constructor
    · show 1 :: t = _
      rw [List.length_cons]
      simpa using ht
    · show (1 :: t).length = (y :: t).length
      simp

theorem normalizeVector_all_zero_correct_witness :
    ([(0 : ℝ), 0, 0] ≠ []) ∧ (∀ x ∈ [(0 : ℝ), 0, 0], x = 0) ∧
    normalizeVector [(0 : ℝ), 0, 0] = [1, 0, 0] := by
  have h1 : [(0 : ℝ), 0, 0] ≠ [] := by simp
  have h2 : ∀ x ∈ [(0 : ℝ), 0, 0], x = 0 := by
    intro x hx
    simpa using hx
  refine ⟨h1, h2, ?_⟩
  have := (normalizeVector_all_zero_correct [(0 : ℝ), 0, 0] h1 h2).1
  simpa [List.replicate_succ] using this

/-- C2 counterexample: The empty vector is (vacuously) an all-zero
input vector, yet `_normalizeVector` applied to it returns a vector of
length 1, not of the same length as the input: the claim as stated fails
at the concrete input `[]`. -/
theorem normalizeVector_all_zero_counterexample :
    (∀ x ∈ ([] : List ℝ), x = 0) ∧
    (normalizeVector ([] : List ℝ)).length ≠ ([] : List ℝ).length := by
  constructor
  · intro x hx
    cases hx
  · have : normalizeVector ([] : List ℝ) = [1] := by
      rw [normalizeVector_all_zero_eq ([] : List ℝ) (by intro x hx; cases hx)]
      rfl
    rw [this]
    simp

/-! ## Ollama embedding service (`OllamaEmbeddingService`) -/

/-- JavaScript string-or-default `value || defaultValue`: an absent value
and the empty string (both falsy) are replaced by the default. -/
def jsOrDefaultStr (v : Option String) (d : String) : String :=
  match v with
  | none => d
  | some s => if s = "" then d else s

/-- JavaScript number-or-default `value || defaultValue`: an absent value
and 0 (falsy) are replaced by the default. -/
def jsOrDefaultNat (v : Option Nat) (d : Nat) : Nat :=
  match v with
  | none => d
  | some n => if n = 0 then d else n

/-- Configuration `OllamaEmbeddingConfig`: all fields optional. -/
structure OllamaEmbeddingConfig where
  apiEndpoint : Option String := none
  model : Option String := none
  dimensions : Option Nat := none
  version : Option String := none

/-- The fields of an `OllamaEmbeddingService` instance, fixed by the
constructor. -/
structure OllamaService where
  model : String
  dimensions : Nat
  version : String
  apiEndpoint : String

/-- The `OllamaEmbeddingService` constructor: each field resolved
independently from the config with a fixed default. -/
def OllamaService.ofConfig (config : OllamaEmbeddingConfig) : OllamaService :=
  { model := jsOrDefaultStr config.model "mxbai-embed-large"
    dimensions := jsOrDefaultNat config.dimensions 1024
    version := jsOrDefaultStr config.version "1.0.0"
    apiEndpoint := jsOrDefaultStr config.apiEndpoint
      "http://localhost:11434/api/embeddings" }

/-- The body of the outbound POST request: `{ prompt: text, model }`. -/
structure OllamaRequest where
  prompt : String
  model : String

/-- Shape of `response.data` as seen by the validation code:
`noData` models a falsy `response.data`; `dataNoEmbedding` models a
present body whose `embedding` field is absent or falsy;
`embeddingNotArray` models a truthy non-array `embedding` field;
`embeddingArray v` models an actual numeric array (possibly empty). -/
inductive ResponseData where
  | noData
  | dataNoEmbedding
  | embeddingNotArray
  | embeddingArray (v : List ℝ)

/-- Outcome of `axios.post`: either a successful (2xx) response carrying a
body, or a thrown axios error (non-2xx status, network failure or timeout)
with an optional status code and optional response body. -/
inductive HttpOutcome where
  | success (data : ResponseData)
  | axiosFailure (status : Option Nat) (body : Option String)

/-- An endpoint is modelled as a function from the posted request body to
the HTTP outcome. -/
def Endpoint : Type := OllamaRequest → HttpOutcome

/-- An error thrown inside the `try` block of `generateEmbedding`:
either an axios error or a plain `Error` (such as the two validation
errors thrown by the code itself). -/
inductive ReqError where
  | axios (status : Option Nat) (body : Option String)
  | plain (message : String)

def invalidResponseMsg : String :=
  "Invalid response from Ollama API - missing embedding data"

def invalidEmbeddingMsg : String :=
  "Invalid embedding returned from Ollama API"

/-- The `try` block of `generateEmbedding`: issue the request, validate the
response shape and normalize the embedding. -/
noncomputable def generateEmbeddingTry (svc : OllamaService) (endpoint : Endpoint)
    (text : String) : Except ReqError (List ℝ) :=
  match endpoint { prompt := text, model := svc.model } with
  | .axiosFailure status body => .error (.axios status body)
  | .success data =>
    match data with
    | .noData => .error (.plain invalidResponseMsg)
    | .dataNoEmbedding => .error (.plain invalidResponseMsg)
    | .embeddingNotArray => .error (.plain invalidEmbeddingMsg)
    | .embeddingArray v =>
      if v.length = 0 then .error (.plain invalidEmbeddingMsg)
      else .ok (normalizeVector v)

/-- The status text `statusCode || "unknown"` in the axios-error message. -/
def statusCodeText (status : Option Nat) : String :=
  match status with
  | none => "unknown"
  | some n => if n = 0 then "unknown" else toString n

/-- The error details appended to an axios-error message: the stringified
response body truncated to 200 characters, or nothing. -/
def axiosErrorDetails (body : Option String) : String :=
  match body with
  | none => ""
  | some d => ": " ++ (d.take 200)

/-- The method `generateEmbedding`: the `try` block, together with the `catch` block
that rewraps axios errors as `Ollama API error (...)` and any other thrown
error as `Error generating embedding: <message>`. -/
noncomputable def generateEmbedding (svc : OllamaService) (endpoint : Endpoint)
    (text : String) : Except String (List ℝ) :=
  match generateEmbeddingTry svc endpoint text with
  | .ok v => .ok v
  | .error (.axios status body) =>
    .error ("Ollama API error (" ++ statusCodeText status ++ ")"
      ++ axiosErrorDetails body)
  | .error (.plain message) =>
    .error ("Error generating embedding: " ++ message)

/-- The accumulation loop of `generateEmbeddings`, monadic so the same
definition can be run both with plain thrown errors (`Except`) and under an
instrumented monad that records the calls actually issued:
`for (const text of texts) embeddings.push(await this.generateEmbedding(text))`. -/
def generateEmbeddingsGo {m : Type → Type} [Monad m]
    (gen : String → m (List ℝ)) :
    List String → List (List ℝ) → m (List (List ℝ))
  | [], acc => pure acc
  | t :: ts, acc => gen t >>= fun v => generateEmbeddingsGo gen ts (acc ++ [v])

/-- The loop of `generateEmbeddings` with an arbitrary single-text generator. -/
def generateEmbeddingsM {m : Type → Type} [Monad m]
    (gen : String → m (List ℝ)) (texts : List String) : m (List (List ℝ)) :=
  generateEmbeddingsGo gen texts []

/-- The method `OllamaEmbeddingService.generateEmbeddings`: the sequential loop
delegating each text to `generateEmbedding`. -/
noncomputable def OllamaService.generateEmbeddings (svc : OllamaService)
    (endpoint : Endpoint) (texts : List String) : Except String (List (List ℝ)) :=
  generateEmbeddingsM (generateEmbedding svc endpoint) texts

/-- C6: When the endpoint responds successfully but the body is falsy,
lacks the `embedding` field, carries a non-array `embedding`, or carries a
zero-length array, `generateEmbedding` fails with the corresponding
invalid-response error (rewrapped by the catch block as
`Error generating embedding: ...`) and never returns any vector in place of
the invalid payload. -/
theorem generateEmbedding_invalid_response (svc : OllamaService)
    (endpoint : Endpoint) (text : String) (d : ResponseData)
    (hresp : endpoint { prompt := text, model := svc.model } = .success d) :
    ((d = .noData ∨ d = .dataNoEmbedding) →
      generateEmbedding svc endpoint text
        = .error ("Error generating embedding: " ++ invalidResponseMsg)) ∧
    ((d = .embeddingNotArray ∨ d = .embeddingArray []) →
      generateEmbedding svc endpoint text
        = .error ("Error generating embedding: " ++ invalidEmbeddingMsg)) ∧
    ((d = .noData ∨ d = .dataNoEmbedding ∨ d = .embeddingNotArray ∨
        d = .embeddingArray []) →
      ∀ w, generateEmbedding svc endpoint text ≠ .ok w) := by
  refine ⟨?_, ?_, ?_⟩
  · rintro (rfl | rfl) <;> simp [generateEmbedding, generateEmbeddingTry, hresp]
  · rintro (rfl | rfl) <;> simp [generateEmbedding, generateEmbeddingTry, hresp]
  · rintro (rfl | rfl | rfl | rfl) w <;>
      simp [generateEmbedding, generateEmbeddingTry, hresp]

theorem generateEmbedding_invalid_response_witness :
    ((fun _ => HttpOutcome.success .dataNoEmbedding :
        Endpoint) { prompt := "hi", model := (OllamaService.ofConfig {}).model }
      = .success .dataNoEmbedding) ∧
    generateEmbedding (OllamaService.ofConfig {})
      (fun _ => HttpOutcome.success .dataNoEmbedding) "hi"
      = .error ("Error generating embedding: " ++ invalidResponseMsg) :=
  ⟨rfl,
    (generateEmbedding_invalid_response (OllamaService.ofConfig {})
      (fun _ => HttpOutcome.success .dataNoEmbedding) "hi" .dataNoEmbedding
      rfl).1 (Or.inr rfl)⟩

/-- C7: When the endpoint responds successfully with body
`{ "embedding": [3, 4] }`, `generateEmbedding` returns exactly
`[0.6, 0.8]` (the input divided by its L2 norm 5). -/
theorem generateEmbedding_three_four (config : OllamaEmbeddingConfig)
    (text : String) :
    generateEmbedding (OllamaService.ofConfig config)
      (fun _ => HttpOutcome.success (.embeddingArray [3, 4])) text
      = .ok [0.6, 0.8] := by
  have h25 : sumOfSquares [(3 : ℝ), 4] = 25 := by
    rw [sumOfSquares_cons, sumOfSquares_cons, sumOfSquares_nil]
    norm_num
  have hs : 0 < sumOfSquares [(3 : ℝ), 4] := by
    rw [h25]
    norm_num
  have hsqrt : Real.sqrt (sumOfSquares [(3 : ℝ), 4]) = 5 := by
    rw [h25, show (25 : ℝ) = 5 ^ 2 by norm_num,
      Real.sqrt_sq (by norm_num : (0 : ℝ) ≤ 5)]
  have hnorm : normalizeVector [(3 : ℝ), 4] = [0.6, 0.8] := by
    rw [normalizeVector_eq_map _ hs]
    simp only [hsqrt, List.map_cons, List.map_nil]
    norm_num
  simp [generateEmbedding, generateEmbeddingTry, hnorm]

/-- C10: On the empty vector, `_normalizeVector` computes magnitude 0,
takes the zero-norm branch and assigns index 0, producing `[1]` — a vector
of length 1, so the same-length property fails for the empty input; yet
`generateEmbedding` never reaches this case, because a zero-length
embedding array is rejected as invalid before normalization. -/
theorem normalizeVector_empty_behavior :
    Real.sqrt (sumOfSquares ([] : List ℝ)) = 0 ∧
    normalizeVector ([] : List ℝ) = [1] ∧
    (normalizeVector ([] : List ℝ)).length ≠ ([] : List ℝ).length ∧
    (∀ (svc : OllamaService) (endpoint : Endpoint) (text : String),
      endpoint { prompt := text, model := svc.model }
        = .success (.embeddingArray []) →
      generateEmbedding svc endpoint text
        = .error ("Error generating embedding: " ++ invalidEmbeddingMsg)) := by
  have hempty : normalizeVector ([] : List ℝ) = [1] := by
    rw [normalizeVector_all_zero_eq ([] : List ℝ) (by intro x hx; cases hx)]
    rfl
  refine ⟨by rw [sumOfSquares_nil, Real.sqrt_zero], hempty, by rw [hempty]; simp, ?_⟩
  intro svc endpoint text hresp
  simp [generateEmbedding, generateEmbeddingTry, hresp]

theorem normalizeVector_empty_behavior_witness :
    ((fun _ => HttpOutcome.success (.embeddingArray []) :
        Endpoint) { prompt := "t", model := (OllamaService.ofConfig {}).model }
      = .success (.embeddingArray [])) ∧
    generateEmbedding (OllamaService.ofConfig {})
      (fun _ => HttpOutcome.success (.embeddingArray [])) "t"
      = .error ("Error generating embedding: " ++ invalidEmbeddingMsg) :=
  ⟨rfl,
    normalizeVector_empty_behavior.2.2.2 (OllamaService.ofConfig {})
      (fun _ => HttpOutcome.success (.embeddingArray [])) "t" rfl⟩

/-! ## Sequencing of `generateEmbeddings` (claim C4)

To observe that the loop issues its single-text calls one at a time in
input order, the same loop definition is run in an instrumented monad that
threads the list of calls issued so far alongside the `Except` result. -/

def LogM (α : Type) : Type := List String → Except String α × List String

def LogM.pureFn {α : Type} (a : α) : LogM α := fun log => (.ok a, log)

def LogM.bindFn {α β : Type} (x : LogM α) (f : α → LogM β) : LogM β :=
  fun log =>
    match x log with
    | (.ok a, log2) => f a log2
    | (.error e, log2) => (.error e, log2)

instance : Monad LogM where
  pure := LogM.pureFn
  bind := LogM.bindFn

theorem LogM.bind_def {α β : Type} (x : LogM α) (f : α → LogM β) :
    x >>= f = LogM.bindFn x f := rfl

theorem LogM.pure_def {α : Type} (a : α) :
    (pure a : LogM α) = LogM.pureFn a := rfl

/-- A single-text generator instrumented to record its argument before
behaving like `gen`. -/
def loggedGen (gen : String → Except String (List ℝ)) :
    String → LogM (List ℝ) :=
  fun t log => (gen t, log ++ [t])

/-- Run the `generateEmbeddings` loop under the instrumented monad,
starting from an empty call log; yields the `Except` outcome together with
the list of single-text calls issued, in the order they were issued. -/
def runLogged (gen : String → Except String (List ℝ))
    (texts : List String) : Except String (List (List ℝ)) × List String :=
  generateEmbeddingsM (loggedGen gen) texts []

theorem except_bind_ok {α β : Type} (a : α) (f : α → Except String β) :
    (Except.ok a : Except String α) >>= f = f a := rfl

theorem except_bind_error {α β : Type} (e : String) (f : α → Except String β) :
    (Except.error e : Except String α) >>= f = Except.error e := rfl

theorem generateEmbeddingsGo_logged_fst
    (gen : String → Except String (List ℝ)) (ts : List String)
    (acc : List (List ℝ)) (log : List String) :
    (generateEmbeddingsGo (loggedGen gen) ts acc log).1
      = generateEmbeddingsGo gen ts acc := by
  induction ts generalizing acc log with
  | nil => rfl
  | cons t ts ih =>
    simp only [generateEmbeddingsGo, LogM.bind_def, LogM.bindFn, loggedGen]
    cases hgen : gen t with
    | ok v => rw [except_bind_ok, ih]
    | error e => rw [except_bind_error]

theorem generateEmbeddingsGo_logged_ok
    (gen : String → Except String (List ℝ)) (f : String → List ℝ)
    (ts : List String) (acc : List (List ℝ)) (log : List String)
    (h : ∀ u ∈ ts, gen u = .ok (f u)) :
    generateEmbeddingsGo (loggedGen gen) ts acc log
      = (.ok (acc ++ ts.map f), log ++ ts) := by
  induction ts generalizing acc log with
  | nil => simp [generateEmbeddingsGo, LogM.pure_def, LogM.pureFn]
  | cons t ts ih =>
    simp only [generateEmbeddingsGo, LogM.bind_def, LogM.bindFn, loggedGen,
      h t (List.mem_cons_self t ts)]
    rw [ih (acc ++ [f t]) (log ++ [t])
      (fun u hu => h u (List.mem_cons_of_mem t hu))]
    simp

theorem generateEmbeddingsGo_logged_error
    (gen : String → Except String (List ℝ)) (f : String → List ℝ)
    (ts1 : List String) (t : String) (ts2 : List String)
    (acc : List (List ℝ)) (log : List String)
    (h1 : ∀ u ∈ ts1, gen u = .ok (f u)) (h2 : gen t = .error e) :
    generateEmbeddingsGo (loggedGen gen) (ts1 ++ t :: ts2) acc log
      = (.error e, log ++ ts1 ++ [t]) := by
  induction ts1 generalizing acc log with
  | nil =>
    simp only [List.nil_append, generateEmbeddingsGo, LogM.bind_def,
      LogM.bindFn, loggedGen, h2]
    simp
  | cons u ts1 ih =>
    simp only [List.cons_append, generateEmbeddingsGo, LogM.bind_def,
      LogM.bindFn, loggedGen, List.append_eq,
      h1 u (List.mem_cons_self u ts1)]
    rw [ih (acc ++ [f u]) (log ++ [u])
      (fun w hw => h1 w (List.mem_cons_of_mem u hw))]
    simp

/-- C4: The Ollama provider method `generateEmbeddings` is the sequential
loop delegating each text to `generateEmbedding`; run with an instrumented
generator that records each call as it is issued: (1) the plain outcome is
exactly the first component of the instrumented run; (2) when every input
succeeds, the calls issued are exactly the inputs in input order and the
vectors come back in the same order; (3) when some input fails, the calls
issued are exactly the inputs up to and including the first failing one
(later inputs are never called), and the whole call fails with that
error, returning no partial results. -/
theorem generateEmbeddings_sequential (svc : OllamaService)
    (endpoint : Endpoint) (gen : String → Except String (List ℝ))
    (f : String → List ℝ) (e : String) :
    (∀ texts, OllamaService.generateEmbeddings svc endpoint texts
      = generateEmbeddingsM (generateEmbedding svc endpoint) texts) ∧
    (∀ texts, generateEmbeddingsM gen texts = (runLogged gen texts).1) ∧
    (∀ texts, (∀ u ∈ texts, gen u = .ok (f u)) →
      runLogged gen texts = (.ok (texts.map f), texts)) ∧
    (∀ ts1 t ts2, (∀ u ∈ ts1, gen u = .ok (f u)) → gen t = .error e →
      runLogged gen (ts1 ++ t :: ts2) = (.error e, ts1 ++ [t])) := by
  refine ⟨fun texts => rfl, ?_, ?_, ?_⟩
  · intro texts
    rw [runLogged, generateEmbeddingsM, generateEmbeddingsM,
      generateEmbeddingsGo_logged_fst]
  · intro texts h
    rw [runLogged, generateEmbeddingsM,
      generateEmbeddingsGo_logged_ok gen f texts [] [] h]
    simp
  · intro ts1 t ts2 h1 h2
    rw [runLogged, generateEmbeddingsM,
      generateEmbeddingsGo_logged_error gen f ts1 t ts2 [] [] h1 h2]
    simp

def c4Gen : String → Except String (List ℝ) :=
  fun u => if u = "b" then .error "boom" else .ok [1]

theorem generateEmbeddings_sequential_witness :
    (∀ u ∈ ["a"], c4Gen u = .ok ((fun _ => ([1] : List ℝ)) u)) ∧
    c4Gen "b" = .error "boom" ∧
    runLogged c4Gen ["a", "b", "c"] = (.error "boom", ["a", "b"]) := by
  have h1 : ∀ u ∈ ["a"], c4Gen u = .ok ((fun _ => ([1] : List ℝ)) u) := by
    intro u hu
    rw [List.mem_singleton] at hu
    subst hu
    rfl
  have h2 : c4Gen "b" = .error "boom" := rfl
  refine ⟨h1, h2, ?_⟩
  have := (generateEmbeddings_sequential (OllamaService.ofConfig {})
    (fun _ => HttpOutcome.axiosFailure none none) c4Gen
    (fun _ => ([1] : List ℝ)) "boom").2.2.2 ["a"] "b" ["c"] h1 h2
  simpa using this

/-! ## Embedding service factory (`EmbeddingServiceFactory`) -/

/-- The `EmbeddingModelInfo` record: the name, dimensions and version triple. -/
structure EmbeddingModelInfo where
  name : String
  dimensions : Nat
  version : String

/-- The `EmbeddingService` capability contract; a method that can throw is
modelled as returning `Except`.  `getModelInfo` is deterministic, so an
instance whose `getModelInfo` throws is modelled by an `error` value. -/
structure EmbeddingService where
  generateEmbedding : String → Except String (List ℝ)
  getModelInfo : Except String EmbeddingModelInfo

/-- The `EmbeddingServiceConfig` record: the recognized configuration options. -/
structure EmbeddingServiceConfig where
  provider : Option String := none
  model : Option String := none
  dimensions : Option Nat := none
  apiKey : Option String := none
  apiEndpoint : Option String := none

/-- A provider factory function, which may throw. -/
def ProviderFn : Type :=
  EmbeddingServiceConfig → Except String EmbeddingService

/-- The registry: a mapping from provider-name keys to factory functions. -/
def Registry : Type := String → Option ProviderFn

def emptyRegistry : Registry := fun _ => none

/-- JavaScript `toLowerCase()`, modelled as the per-character lowering of
the characters of the string. -/
def jsToLower (s : String) : String :=
  ⟨s.data.map Char.toLower⟩

/-- The static method `registerProvider`: store the constructor under the lowercased name,
overwriting any existing entry for that key. -/
def registerProvider (reg : Registry) (name : String) (fn : ProviderFn) :
    Registry :=
  fun k => if k = jsToLower name then some fn else reg k

/-- Provider-name resolution, `config.provider` or-default then lowercased:
an absent provider and
the (falsy) empty string both resolve to `"default"`, then the name is
lowercased. -/
def resolveProviderName (p : Option String) : String :=
  jsToLower (jsOrDefaultStr p "default")

/-- The errors `createService` can throw: its own distinct
"provider not registered" error, or an error rethrown from the provider
constructor (or from `getModelInfo`, which the logging inside the `try`
block evaluates). -/
inductive FactoryError where
  | notRegistered (providerName : String)
  | thrown (message : String)

/-- The message of the corresponding thrown `Error`. -/
def FactoryError.message : FactoryError → String
  | .notRegistered providerName =>
    "Provider \"" ++ providerName ++ "\" is not registered"
  | .thrown message => message

/-- The `try` block of `createService`: invoke the constructor, then
evaluate `service.getModelInfo()` inside the debug-logging expression; any
error is caught, logged, and rethrown unchanged. -/
def applyProviderFn (fn : ProviderFn) (config : EmbeddingServiceConfig) :
    Except FactoryError EmbeddingService :=
  match fn config with
  | .ok service =>
    match service.getModelInfo with
    | .ok _ => .ok service
    | .error e => .error (.thrown e)
  | .error e => .error (.thrown e)

/-- The static method `createService`: resolve the provider name, look it up in the
registry, and either run the registered constructor (rethrowing its
failures) or fail with the distinct "provider not registered" error. -/
def createService (reg : Registry) (config : EmbeddingServiceConfig) :
    Except FactoryError EmbeddingService :=
  match reg (resolveProviderName config.provider) with
  | some fn => applyProviderFn fn config
  | none => .error (.notRegistered (resolveProviderName config.provider))

/-- The process environment variables read by `createFromEnvironment`. -/
structure EnvState where
  mockEmbeddings : Option String := none
  embeddingProvider : Option String := none
  openaiApiKey : Option String := none
  ollamaApiEndpoint : Option String := none
  embeddingModel : Option String := none

/-- The config `createFromEnvironment` derives from the environment. -/
def envConfig (env : EnvState) : EmbeddingServiceConfig :=
  { provider := some (jsOrDefaultStr env.embeddingProvider "default")
    apiKey := env.openaiApiKey
    apiEndpoint := env.ollamaApiEndpoint
    model := env.embeddingModel }

/-- Modelled from the spec: the synthetic `DefaultEmbeddingService`, whose
source file is not under `src/` — always constructible with no required
fields, contract-conformant (its `getModelInfo` is stable and never
fails), and it manufactures unit vectors without network access; the
randomness of its vectors is modelled by a fixed unit basis vector. -/
def defaultEmbeddingService : EmbeddingService :=
  { generateEmbedding := fun _ => .ok [1]
    getModelInfo := .ok { name := "default", dimensions := 1, version := "1.0.0" } }

theorem defaultEmbeddingService_getModelInfo_isOk :
    (defaultEmbeddingService.getModelInfo).isOk = true := rfl

/-- The static method `createFromEnvironment`: honor the mock-embeddings escape hatch, then
derive a config from the environment and call `createService` inside a
`try` whose success path also evaluates `service.getModelInfo()` in an
info-logging expression; any failure is caught and the default service is
returned instead. -/
def createFromEnvironment (env : EnvState) (reg : Registry) :
    EmbeddingService :=
  if env.mockEmbeddings = some "true" then defaultEmbeddingService
  else
    match createService reg (envConfig env) with
    | .ok service =>
      match service.getModelInfo with
      | .ok _ => service
      | .error _ => defaultEmbeddingService
    | .error _ => defaultEmbeddingService

/-- C5: For every configuration whose case-insensitively resolved
provider name is not present in the registry, `createService` fails with
the distinct "provider not registered" error carrying the resolved
provider name; since the registry lookup is empty there is no constructor
to invoke.  The corresponding thrown message names the provider. -/
theorem createService_unregistered (reg : Registry)
    (config : EmbeddingServiceConfig)
    (h : reg (resolveProviderName config.provider) = none) :
    createService reg config
      = .error (.notRegistered (resolveProviderName config.provider)) ∧
    FactoryError.message (.notRegistered (resolveProviderName config.provider))
      = "Provider \"" ++ resolveProviderName config.provider
        ++ "\" is not registered" := by
  constructor
  · rw [createService, h]
  · rfl

theorem createService_unregistered_witness :
    (emptyRegistry (resolveProviderName (some "Unregistered-Name")) = none) ∧
    createService emptyRegistry { provider := some "Unregistered-Name" }
      = .error (.notRegistered "unregistered-name") := by
  have h : emptyRegistry (resolveProviderName (some "Unregistered-Name"))
      = none := rfl
  have hres : resolveProviderName (some "Unregistered-Name")
      = "unregistered-name" := rfl
  refine ⟨h, ?_⟩
  have := (createService_unregistered emptyRegistry
    { provider := some "Unregistered-Name" } h).1
  rw [this, hres]

/-- C9: the method `createService` evaluates `getModelInfo()` on the freshly
constructed service inside its debug-logging expression, and its catch
block rethrows: for any registered constructor returning a service whose
`getModelInfo` throws, `createService` throws that error to its caller
even though construction itself succeeded. -/
theorem createService_modelInfo_throws (reg : Registry)
    (config : EmbeddingServiceConfig) (fn : ProviderFn)
    (svc : EmbeddingService) (e : String)
    (hreg : reg (resolveProviderName config.provider) = some fn)
    (hfn : fn config = .ok svc) (hinfo : svc.getModelInfo = .error e) :
    createService reg config = .error (.thrown e) := by
  simp only [createService, hreg, applyProviderFn, hfn, hinfo]

def badService : EmbeddingService :=
  { generateEmbedding := fun _ => .error "unavailable"
    getModelInfo := .error "boom" }

def badInfoProviderFn : ProviderFn := fun _ => .ok badService

theorem createService_modelInfo_throws_witness :
    ((registerProvider emptyRegistry "bad" badInfoProviderFn)
        (resolveProviderName (some "bad")) = some badInfoProviderFn) ∧
    (badInfoProviderFn { provider := some "bad" } = .ok badService) ∧
    (badService.getModelInfo = .error "boom") ∧
    createService (registerProvider emptyRegistry "bad" badInfoProviderFn)
      { provider := some "bad" } = .error (.thrown "boom") := by
  have hreg : (registerProvider emptyRegistry "bad" badInfoProviderFn)
      (resolveProviderName (some "bad")) = some badInfoProviderFn := rfl
  exact ⟨hreg, rfl, rfl,
    createService_modelInfo_throws _ _ badInfoProviderFn badService "boom"
      hreg rfl rfl⟩

/-- C3: the method `createFromEnvironment` never fails outward: for every
environment state and every registry (hence every behavior of the
registered constructors, including ones that always throw), it returns a
service whose `getModelInfo` succeeds (contract-conformant); and whenever
resolution or construction fails for any reason outside the mock escape
hatch, the result is the synthetic default provider instance. -/
theorem createFromEnvironment_never_fails (env : EnvState) (reg : Registry) :
    ((createFromEnvironment env reg).getModelInfo).isOk = true ∧
    (∀ e, env.mockEmbeddings ≠ some "true" →
      createService reg (envConfig env) = .error e →
      createFromEnvironment env reg = defaultEmbeddingService) := by
  by_cases hmock : env.mockEmbeddings = some "true"
  · constructor
    · rw [createFromEnvironment, if_pos hmock]
      rfl
    · intro e hne _
      exact absurd hmock hne
  · rw [createFromEnvironment, if_neg hmock]
    cases hcs : createService reg (envConfig env) with
    | ok service =>
      constructor
      · cases hinfo : service.getModelInfo with
        | ok info => simp [hinfo, Except.isOk, Except.toBool]
        | error e2 =>
          simp [hinfo, defaultEmbeddingService, Except.isOk, Except.toBool]
      · intro e _ habs
        simp at habs
    | error e1 =>
      exact ⟨rfl, fun e _ _ => rfl⟩

def alwaysThrowProviderFn : ProviderFn := fun _ => .error "constructor failed"

def boomEnv : EnvState := { embeddingProvider := some "boom" }

def boomRegistry : Registry :=
  registerProvider emptyRegistry "boom" alwaysThrowProviderFn

theorem createFromEnvironment_never_fails_witness :
    (boomEnv.mockEmbeddings ≠ some "true") ∧
    (createService boomRegistry (envConfig boomEnv)
      = .error (.thrown "constructor failed")) ∧
    createFromEnvironment boomEnv boomRegistry = defaultEmbeddingService ∧
    ((createFromEnvironment boomEnv boomRegistry).getModelInfo).isOk = true := by
  have h1 : boomEnv.mockEmbeddings ≠ some "true" := by
    simp [boomEnv]
  have h2 : createService boomRegistry (envConfig boomEnv)
      = .error (.thrown "constructor failed") := rfl
  refine ⟨h1, h2, ?_, ?_⟩
  · exact (createFromEnvironment_never_fails boomEnv boomRegistry).2
      (.thrown "constructor failed") h1 h2
  · exact (createFromEnvironment_never_fails boomEnv boomRegistry).1

def unitService : EmbeddingService :=
  { generateEmbedding := fun _ => .ok [1]
    getModelInfo := .ok { name := "unit", dimensions := 2, version := "1" } }

def unitProviderFn : ProviderFn := fun _ => .ok unitService

/-- C8 counterexample: Register a constructor under the empty name
(the empty string equals its own lowercasing), then call `createService`
with `provider = ""`: the (falsy) empty string resolves to the name
`"default"`, which is unregistered here, so the call fails with a
"provider not registered" error instead of resolving to and invoking the
registered constructor — refuting the claim for `n = m = ""`. -/
theorem registry_case_insensitive_counterexample :
    jsToLower "" = jsToLower "" ∧
    (registerProvider emptyRegistry "" unitProviderFn) (jsToLower "")
      = some unitProviderFn ∧
    unitProviderFn { provider := some "" } = .ok unitService ∧
    createService (registerProvider emptyRegistry "" unitProviderFn)
      { provider := some "" } = .error (.notRegistered "default") ∧
    createService (registerProvider emptyRegistry "" unitProviderFn)
      { provider := some "" } ≠ .ok unitService := by
  refine ⟨rfl, rfl, rfl, rfl, ?_⟩
  intro hcontra
  have h4 : createService (registerProvider emptyRegistry "" unitProviderFn)
      { provider := some "" } = .error (.notRegistered "default") := rfl
  rw [h4] at hcontra
  exact Except.noConfusion hcontra

/-- C8 (amended: non-empty provider strings): `registerProvider`
stores the constructor under the lowercased name, overwriting any existing
entry for that key; for every registered constructor `f` under a name `n`
and every non-empty string `m` whose lowercasing equals the lowercasing of
`n`, `createService` with `provider = m` resolves to and invokes `f` with
the given config (the empty string instead resolves, by JavaScript
falsiness, to the provider name `"default"`); and among non-empty provider
strings the registry entry consulted depends only on the lowercase form of
`config.provider`. -/
theorem registry_case_insensitive (reg : Registry) (n m : String)
    (f g : ProviderFn) (config : EmbeddingServiceConfig)
    (hm : m ≠ "") (hlow : jsToLower m = jsToLower n)
    (hconf : config.provider = some m) :
    (registerProvider reg n f) (jsToLower n) = some f ∧
    (registerProvider (registerProvider reg n g) n f) (jsToLower n) = some f ∧
    createService (registerProvider reg n f) config
      = applyProviderFn f config ∧
    (∀ m2 m3 : String, m2 ≠ "" → m3 ≠ "" → jsToLower m2 = jsToLower m3 →
      ∀ reg2 : Registry, reg2 (resolveProviderName (some m2))
        = reg2 (resolveProviderName (some m3))) := by
  have hres : resolveProviderName config.provider = jsToLower n := by
    rw [hconf]
    simp only [resolveProviderName, jsOrDefaultStr]
    rw [if_neg hm, hlow]
  refine ⟨by simp [registerProvider], by simp [registerProvider], ?_, ?_⟩
  · simp [createService, hres, registerProvider]
  · intro m2 m3 h2 h3 h23 reg2
    simp only [resolveProviderName, jsOrDefaultStr]
    rw [if_neg h2, if_neg h3, h23]

theorem registry_case_insensitive_witness :
    ("myprov" ≠ "") ∧ (jsToLower "myprov" = jsToLower "MyProv") ∧
    createService (registerProvider emptyRegistry "MyProv" unitProviderFn)
      { provider := some "myprov" }
      = applyProviderFn unitProviderFn { provider := some "myprov" } := by
  have hm : "myprov" ≠ "" := by decide
  exact ⟨hm, rfl,
    (registry_case_insensitive emptyRegistry "MyProv" "myprov"
      unitProviderFn unitProviderFn { provider := some "myprov" }
      hm rfl rfl).2.2.1⟩

theorem generateEmbedding_three_four_witness :
    generateEmbedding (OllamaService.ofConfig {})
      (fun _ => HttpOutcome.success (.embeddingArray [3, 4])) "hello"
      = .ok [0.6, 0.8] :=
  generateEmbedding_three_four {} "hello"
